import Mathlib

/-!
Shallow embedding of `src/my_discord_bot/__init__.py` (KS1019/my-discord-bot):
an RSS-to-Discord delivery pipeline with a SQLite dedup store, random entry
sampling, embed building and rate-limit retry.  Python strings are modelled as
`List Char`, the SQLite table `sent_entries (url TEXT PRIMARY KEY, delivered
TIMESTAMP)` as a list of rows, and external effects (network responses,
`random`, the clock, `html.unescape`, timestamp conversion) as explicit
oracle parameters.  Definitions come first, then the lemmas and the claim
theorems.
-/

namespace MyDiscordBot

/-- Python strings, modelled as lists of characters (`s[:n]` = `List.take n`). -/
abbrev Str := List Char

/-- Whitespace characters stripped by Python `str.strip()`. -/
def isPySpace (c : Char) : Bool :=
  c = ' ' || c = '\t' || c = '\n' || c = '\r' || c = '\x0b' || c = '\x0c'

/-- Python `str.strip()`: drop leading and trailing whitespace. -/
def pyStrip (s : Str) : Str :=
  ((s.dropWhile isPySpace).reverse.dropWhile isPySpace).reverse

/-- Helper for the regex `<[^>]+>`: from the characters after a `<`, consume
one or more non-`>` characters followed by `>`; `none` when no such match
exists. -/
def dropTag : Str → Option Str
  | [] => none
  | c :: rest =>
    if c = '>' then none          -- `[^>]+` needs at least one character
    else skipToGt rest
where
  /-- consume further non-`>` characters until the closing `>`. -/
  skipToGt : Str → Option Str
    | [] => none
    | c :: rest => if c = '>' then some rest else skipToGt rest

/-- Python `re.sub(r"<[^>]+>", "", text)`: delete every leftmost match of the
tag pattern `<[^>]+>`. -/
def removeTags : Str → Str
  | [] => []
  | c :: rest =>
    if c = '<' then
      match h : dropTag rest with
      | some rest' => removeTags rest'
      | none => c :: removeTags rest
    else c :: removeTags rest
termination_by s => s.length
decreasing_by
  · have hlt : ∀ (s s' : Str), dropTag.skipToGt s = some s' →
        s'.length < s.length := by
      intro s
      induction s with
      | nil => intro s' hh; simp [dropTag.skipToGt] at hh
      | cons c cs ih =>
        intro s' hh
        rw [dropTag.skipToGt] at hh
        split at hh
        · cases hh; simp
        · exact Nat.lt_trans (ih _ hh) (Nat.lt_succ_self _)
    have hdt : rest'.length < rest.length := by
      cases rest with
      | nil => simp [dropTag] at h
      | cons c cs =>
        rw [dropTag] at h
        split at h
        · exact absurd h (by simp)
        · exact Nat.lt_trans (hlt _ _ h) (Nat.lt_succ_self _)
    exact Nat.lt_succ_of_lt hdt
  · exact Nat.lt_succ_self _
  · exact Nat.lt_succ_self _

/-- Function `strip_html(text)`: the source computes
`re.sub(r"<[^>]+>", "", html.unescape(text)).strip()`.  The stdlib
`html.unescape` is external; it is passed in as `unescape`. -/
def strip_html (unescape : Str → Str) (text : Str) : Str :=
  pyStrip (removeTags (unescape text))

/-- A feedparser entry: the fields the program reads, each optional
(`entry.get(...)`).  `published_parsed` is the `struct_time` tuple, modelled
as its list of integer components. -/
structure Entry where
  title : Option Str
  link : Option Str
  summary : Option Str
  author : Option Str
  published_parsed : Option (List Int)
deriving Repr, DecidableEq

/-- The Discord embed dict built by `entry_to_embed`. -/
structure Embed where
  title : Str
  url : Str
  description : Str
  color : Int
  footerText : Str
  timestamp : Option Str
  author : Option Str
deriving Repr, DecidableEq

/-- External Python functions used by `entry_to_embed`: `unescape` is
`html.unescape`; `tsIso tp` is the guarded timestamp block
`calendar.timegm(tuple(tp))` then `datetime.fromtimestamp(ts, utc).isoformat()`,
with `none` modelling the caught `ValueError/OSError/OverflowError`. -/
structure PyEnv where
  unescape : Str → Str
  tsIso : List Int → Option Str

/-- The title fallback `(entry.get("title", "Untitled") or "Untitled")`:
the fallback literal is used when the title is absent or empty (falsy). -/
def titleOrUntitled : Option Str → Str
  | none => "Untitled".data
  | some t => if t = [] then "Untitled".data else t

/-- Function `entry_to_embed(entry, feed_title, color)`: convert a feedparser
entry to a Discord embed dict. -/
def entry_to_embed (pe : PyEnv) (entry : Entry) (feed_title : Str) (color : Int) :
    Embed :=
  -- raw_desc = str(entry.get("summary", "") or "")
  let raw_desc : Str := entry.summary.getD []
  let description : Str := (strip_html pe.unescape raw_desc).take 300
  { title := (titleOrUntitled entry.title).take 256
    url := entry.link.getD []
    description := description
    color := color
    footerText := feed_title.take 2048
    -- `if published_parsed:` — falsy when absent or the empty tuple
    timestamp :=
      match entry.published_parsed with
      | none => none
      | some tp => if tp = [] then none else pe.tsIso tp
    -- `if author:` — falsy when absent or empty
    author :=
      match entry.author with
      | none => none
      | some a => if a = [] then none else some (a.take 256) }

/-- Function `feed_title_to_color(title) = hash(title) & 0xFFFFFF`.  Python's
`hash` is process-seeded and external, passed in as `pyHash`; on Python's
arbitrary-precision two's-complement integers, `n & 0xFFFFFF` equals the
(always non-negative) remainder `n mod 2^24`. -/
def feed_title_to_color (pyHash : Str → Int) (title : Str) : Int :=
  pyHash title % 16777216

/-- A row of the table `sent_entries (url TEXT PRIMARY KEY, delivered
TIMESTAMP)`; the store is the list of rows in insertion order. -/
abbrev Store := List (Str × Str)

/-- The urls present in the store (the primary-key column). -/
def keys (store : Store) : List Str := store.map Prod.fst

/-- Statement `INSERT OR IGNORE INTO sent_entries (url, delivered) VALUES
(?, ?)`: returns the new store and whether a row was inserted
(`c.rowcount == 1`). -/
def tryReserve (store : Store) (url now : Str) : Store × Bool :=
  if url ∈ keys store then (store, false)
  else (store ++ [(url, now)], true)

/-- Statement `DELETE FROM sent_entries WHERE url = ?`. -/
def release (store : Store) (url : Str) : Store :=
  store.filter (fun r => r.1 ≠ url)

/-- Enum `class Mode(Enum)` with `DEVELOPMENT = 1; PRODUCTION = 2`. -/
inductive Mode where
  | development
  | production
deriving Repr, DecidableEq

/-- Dataclass `DuplicateEntry`. -/
structure DuplicateEntry where
  url : Str
  delivered : Str
  sql_error : Str
deriving Repr, DecidableEq

/-- Dataclass `FeedStats` with its default counter values. -/
structure FeedStats where
  feed_name : Str
  available : ℕ := 0
  selected : ℕ := 0
  new : ℕ := 0
  duplicate : ℕ := 0
  posted : ℕ := 0
  failed : ℕ := 0
  duplicates : List DuplicateEntry := []
deriving Repr, DecidableEq

/-- Outcome of one `requests.post` call, supplied by an oracle: either a
raised `requests.RequestException` or a response with a status code.  For a
429 response, `retryAfter` is the readable `resp.json().get("retry_after", 5)`
value (`none` models both an unreadable body and a missing key, which fall
back to 5). -/
inductive HttpResult where
  | exn
  | resp (status : ℕ) (retryAfter : Option Int)
deriving Repr, DecidableEq

/-- Call `resp.raise_for_status()` succeeds iff the status is not 4xx/5xx. -/
def okStatus (s : ℕ) : Bool := !(400 ≤ s && s < 600)

/-- Outcome of the `try` block around the POST(s) for one entry: whether
delivery succeeded, the rate-limit back-off sleeps performed, and how many
POSTs were made. -/
structure DeliverResult where
  ok : Bool
  backoffs : List Int
  requests : ℕ
deriving Repr, DecidableEq

/-- The delivery attempt for one entry (`__init__.py` lines 257-273): POST; on
a 429 response sleep for `retry_after` (default 5) and retry exactly once;
then `raise_for_status`.  `r1` and `r2` are the oracle outcomes of the first
and (if made) second POST. -/
def deliver (r1 r2 : HttpResult) : DeliverResult :=
  match r1 with
  | .exn => ⟨false, [], 1⟩
  | .resp s ra =>
    if s = 429 then
      let wait := ra.getD 5
      match r2 with
      | .exn => ⟨false, [wait], 2⟩
      | .resp s2 _ => ⟨okStatus s2, [wait], 2⟩
    else ⟨okStatus s, [], 1⟩

/-- Per-entry external context: `datetime.now()` rendered as the stored
timestamp string, and the oracle outcomes of the (up to two) POSTs. -/
structure EntryCtx where
  now : Str
  r1 : HttpResult
  r2 : HttpResult

/-- Result of processing one entry: updated store and stats, plus the number
of POSTs made and the rate-limit back-off sleeps performed. -/
structure EntryResult where
  store : Store
  stats : FeedStats
  requests : ℕ
  backoffs : List Int

/-- One iteration of `for entry in random_entries` (`__init__.py` lines
219-281): skip link-less entries, `INSERT OR IGNORE` to deduplicate, record
duplicates, in development log only, in production deliver and on failure
delete the row again.  The embed payload sent is `entry_to_embed`; the oracle
responses in `ctx` are independent of its contents. -/
def processEntry (mode : Mode) (store : Store) (stats : FeedStats) (e : Entry)
    (ctx : EntryCtx) : EntryResult :=
  let entry_link : Str := e.link.getD []
  if entry_link = [] then ⟨store, stats, 0, []⟩
  else
    let res := tryReserve store entry_link ctx.now
    if res.2 = false then
      -- c.rowcount == 0: duplicate
      ⟨res.1,
       { stats with
         duplicate := stats.duplicate + 1
         duplicates := stats.duplicates ++ [⟨entry_link, ctx.now, "duplicate".data⟩] },
       0, []⟩
    else
      let stats1 := { stats with new := stats.new + 1 }
      match mode with
      | .development => ⟨res.1, stats1, 0, []⟩
      | .production =>
        let d := deliver ctx.r1 ctx.r2
        if d.ok then
          ⟨res.1, { stats1 with posted := stats1.posted + 1 }, d.requests, d.backoffs⟩
        else
          ⟨release res.1 entry_link, { stats1 with failed := stats1.failed + 1 },
           d.requests, d.backoffs⟩

/-- The whole `for entry in random_entries` loop, threading store and stats. -/
def processEntries (mode : Mode) (store : Store) (stats : FeedStats) :
    List (Entry × EntryCtx) → Store × FeedStats
  | [] => (store, stats)
  | (e, ctx) :: rest =>
    let r := processEntry mode store stats e ctx
    processEntries mode r.store r.stats rest

/-- Modelled from the spec: `random.sample(population, k)` draws `k` distinct
positions of the population uniformly without replacement.  The drawn
positions are supplied by the randomness oracle `sel` (its first `count`
entries); out-of-range positions contribute nothing. -/
def sampleModel {α : Type} (entries : List α) (count : ℕ) (sel : List ℕ) :
    List α :=
  (sel.take count).filterMap fun i => entries[i]?

/-- The `feedparser.parse` result for one link: the parse-failure flag
`bozo`, the optional feed title (`none` models both a missing `data.feed` and
a missing title, in which case the link itself is used), and the entries. -/
structure Feed where
  rss_link : Str
  feedTitle : Option Str
  bozo : Bool
  entries : List Entry

/-- Per-feed external context: the `random.randint(1, max(1, max_entries))`
draw `k`, the positions drawn by `random.sample`, and the per-entry contexts
(zipped against the sampled entries). -/
structure FeedCtx where
  k : ℕ
  sel : List ℕ
  ectx : List EntryCtx

/-- One iteration of `for rss_link in rss_links` (`__init__.py` lines
185-283): parse (oracle `f`), record a stats row, skip on parse failure with
no entries, record `available`, skip empty feeds, sample, process the sampled
entries. -/
def processFeed (mode : Mode) (store : Store) (f : Feed) (ctx : FeedCtx) :
    Store × FeedStats :=
  let feed_title : Str := f.feedTitle.getD f.rss_link
  let stats0 : FeedStats := { feed_name := feed_title }
  if f.bozo && f.entries.isEmpty then (store, stats0)
  else
    let stats1 := { stats0 with available := f.entries.length }
    if f.entries.isEmpty then (store, stats1)
    else
      let sample_count := min f.entries.length ctx.k
      let random_entries := sampleModel f.entries sample_count ctx.sel
      let stats2 := { stats1 with selected := random_entries.length }
      processEntries mode store stats2 (random_entries.zip ctx.ectx)

/-- The whole feed loop, collecting the `all_feed_stats` list. -/
def processFeeds (mode : Mode) (store : Store) :
    List (Feed × FeedCtx) → Store × List FeedStats
  | [] => (store, [])
  | (f, ctx) :: rest =>
    let r := processFeed mode store f ctx
    let rr := processFeeds mode r.1 rest
    (rr.1, r.2 :: rr.2)

/-- The process environment read by `main`: the `MODE` and
`MAX_ENTRIES_PER_RSS` variables, `sys.argv`, and the lines of the RSS links
file (`none` models `FileNotFoundError`). -/
structure Env where
  modeVar : Option Str
  argv : List Str
  fileLines : Option (List Str)
  maxEntriesVar : Option Str

/-- Modelled from the spec: Python `int(s)` conversion of an environment
string; parse failure (`ValueError`) yields `none`. -/
def pyInt (s : Str) : Option Int := (String.mk s).toInt?

/-- The filtered link list: `[line.strip() for line in f if line.strip() and
not line.strip().startswith("#")]`. -/
def cleanLinks (lines : List Str) : List Str :=
  lines.filterMap fun line =>
    let s := pyStrip line
    if s ≠ [] ∧ ¬ ("#".data.isPrefixOf s) then some s else none

/-- The validated configuration assembled by `main` before any feed is
touched. -/
structure Config where
  mode : Mode
  rss_links : List Str
  webhook : Str
  maxEntries : Int

/-- The destination-URI start required in production:
`https://discord.com/api/webhooks/`. -/
def webhookBase : Str := "https://discord.com/api/webhooks/".data

/-- The configuration checks of `main` that follow the `MODE` parse (lines
122-168), in source order: argv arity, links file read, empty link list,
`MAX_ENTRIES_PER_RSS` parse and positivity, webhook-start check in
production.  `.error` corresponds to an early `return 1`. -/
def parseConfigRest (running_mode : Mode) (argv : List Str)
    (fileLines : Option (List Str)) (maxEntriesVar : Option Str) :
    Except Str Config :=
  if argv.length < 3 then .error "Usage".data
  else
    let discord_webhook_url := argv.getD 2 []
    match fileLines with
    | none => .error "RSS links file not found".data
    | some lines =>
      let rss_links := cleanLinks lines
      if rss_links = [] then .error "No RSS links found".data
      else
        match pyInt (maxEntriesVar.getD "5".data) with
        | none => .error "MAX_ENTRIES_PER_RSS must be an integer".data
        | some m =>
          if m ≤ 0 then .error "MAX_ENTRIES_PER_RSS must be greater than 0".data
          else
            if running_mode = .production ∧
                ¬ (webhookBase.isPrefixOf discord_webhook_url) then
              .error "discord_webhook_url must start with the webhook base".data
            else
              .ok ⟨running_mode, rss_links, discord_webhook_url, m⟩

/-- The configuration-validation part of `main` (lines 99-168): the `MODE`
parse and range check (lines 99-120) select the running mode, then the rest
of the checks run. -/
def parseConfig (env : Env) : Except Str Config :=
  match env.modeVar with
  | none => parseConfigRest .production env.argv env.fileLines env.maxEntriesVar
  | some s =>
    match pyInt s with
    | none => .error "MODE must be an integer".data
    | some v =>
      if v = 1 then
        parseConfigRest .development env.argv env.fileLines env.maxEntriesVar
      else if v = 2 then
        parseConfigRest .production env.argv env.fileLines env.maxEntriesVar
      else .error "MODE must be one of [1, 2]".data

/-- Function `main`: validate the configuration; on a configuration error
return exit code 1 with nothing processed, otherwise process every feed
(each link's parse result and randomness supplied by the oracle `world`) and
return exit code 0.  Result: (exit code, final store, all_feed_stats). -/
def runMain (env : Env) (world : Str → Feed × FeedCtx) (store : Store) :
    Int × Store × List FeedStats :=
  match parseConfig env with
  | .error _ => (1, store, [])
  | .ok cfg =>
    let r := processFeeds cfg.mode store (cfg.rss_links.map world)
    (0, r.1, r.2)

/-- Spec wording: "invalid mode value". -/
def badModeSpec (env : Env) : Bool :=
  match env.modeVar with
  | none => false
  | some s =>
    match pyInt s with
    | none => true
    | some v => !(v = 1 || v = 2)

/-- The operating mode that a valid configuration selects. -/
def modeOf (env : Env) : Mode :=
  match env.modeVar with
  | some s => if pyInt s = some 1 then .development else .production
  | none => .production

/-- Spec wording: "non-integer or non-positive max-entries". -/
def badMaxSpec (env : Env) : Bool :=
  match pyInt (env.maxEntriesVar.getD "5".data) with
  | none => true
  | some v => v ≤ 0

/-- Spec wording: the configuration errors — "invalid mode value, missing
arguments, missing or empty feed list, non-integer or non-positive
max-entries, malformed destination URI in live mode". -/
def configErrorSpec (env : Env) : Bool :=
  badModeSpec env
  || env.argv.length < 3
  || env.fileLines.isNone
  || (match env.fileLines with
      | some lines => cleanLinks lines = []
      | none => false)
  || badMaxSpec env
  || (modeOf env = .production
      && !(webhookBase.isPrefixOf (env.argv.getD 2 [])))

/-- Whether a configuration parse ended in an early `return 1`. -/
def isErr : Except Str Config → Bool
  | .error _ => true
  | .ok _ => false

/-- Concrete fixture: a url. -/
def wUrl : Str := "http://example.com/a".data

/-- Concrete fixture: a timestamp string. -/
def wNow : Str := "2026-01-01T00:00:00+00:00".data

/-- Concrete fixture: an entry with all deliverable fields. -/
def wEntry : Entry :=
  { title := some "Hello".data, link := some wUrl,
    summary := some "<p>Hi</p>".data, author := none, published_parsed := none }

/-- Concrete fixture: an entry without a link. -/
def wEntryNoLink : Entry :=
  { title := none, link := none, summary := none, author := none,
    published_parsed := none }

/-- Concrete fixture: fresh stats for one feed. -/
def wStats : FeedStats := { feed_name := "Feed".data }

/-- Concrete fixture: a context whose first POST succeeds. -/
def wCtxOk : EntryCtx := { now := wNow, r1 := .resp 200 none, r2 := .resp 200 none }

/-- Concrete fixture: a context whose first POST raises. -/
def wCtxFail : EntryCtx := { now := wNow, r1 := .exn, r2 := .resp 200 none }

/-- Concrete fixture: a context that is rate-limited once, then succeeds. -/
def wCtx429 : EntryCtx :=
  { now := wNow, r1 := .resp 429 (some 7), r2 := .resp 200 none }

/-- Concrete fixture: a feed whose parse failed with no entries. -/
def wFeedBozo : Feed :=
  { rss_link := "http://feed".data, feedTitle := none, bozo := true, entries := [] }

/-- Concrete fixture: a healthy one-entry feed. -/
def wFeed : Feed :=
  { rss_link := "http://feed".data, feedTitle := some "Feed".data, bozo := false,
    entries := [wEntry] }

/-- Concrete fixture: randomness and network context for `wFeed`. -/
def wFeedCtx : FeedCtx := { k := 1, sel := [0], ectx := [wCtxOk] }

/-- Concrete fixture: a valid environment. -/
def wEnv : Env :=
  { modeVar := none,
    argv := ["prog".data, "links.txt".data, webhookBase ++ "x".data],
    fileLines := some ["http://feed".data], maxEntriesVar := none }

/-! Store lemmas shared by the claims. -/

theorem tryReserve_of_not_mem {store : Store} {url : Str} (now : Str)
    (h : url ∉ keys store) :
    tryReserve store url now = (store ++ [(url, now)], true) := by
  simp [tryReserve, h]

theorem tryReserve_of_mem {store : Store} {url : Str} (now : Str)
    (h : url ∈ keys store) :
    tryReserve store url now = (store, false) := by
  simp [tryReserve, h]

theorem not_mem_keys_release (store : Store) (url : Str) :
    url ∉ keys (release store url) := by
  simp only [keys, release, List.mem_map]
  rintro ⟨r, hr, rfl⟩
  have := List.of_mem_filter hr
  simp at this

theorem nodup_keys_append {store : Store} {url now : Str}
    (h : (keys store).Nodup) (hu : url ∉ keys store) :
    (keys (store ++ [(url, now)])).Nodup := by
  simp only [keys, List.map_append, List.map_cons, List.map_nil]
  simp only [keys] at h hu
  simp [List.nodup_append, h, hu]

theorem nodup_keys_release {store : Store} (url : Str)
    (h : (keys store).Nodup) :
    (keys (release store url)).Nodup :=
  h.sublist ((List.filter_sublist store).map Prod.fst)

theorem urls_nonempty_append {store : Store} {url now : Str}
    (h : ∀ r ∈ store, r.1 ≠ []) (hu : url ≠ []) :
    ∀ r ∈ store ++ [(url, now)], r.1 ≠ [] := by
  intro r hr
  rcases List.mem_append.mp hr with hr | hr
  · exact h r hr
  · simp at hr; subst hr; exact hu

theorem urls_nonempty_release {store : Store} (url : Str)
    (h : ∀ r ∈ store, r.1 ≠ []) :
    ∀ r ∈ release store url, r.1 ≠ [] := fun r hr =>
  h r (List.mem_of_mem_filter hr)

/-- The store after processing one entry: unchanged, or extended with a fresh
non-empty url, or extended then released again. -/
theorem processEntry_store_cases (mode : Mode) (store : Store)
    (stats : FeedStats) (e : Entry) (ctx : EntryCtx) :
    (processEntry mode store stats e ctx).store = store ∨
    ∃ url, url ≠ [] ∧ url ∉ keys store ∧
      ((processEntry mode store stats e ctx).store = store ++ [(url, ctx.now)] ∨
       (processEntry mode store stats e ctx).store
         = release (store ++ [(url, ctx.now)]) url) := by
  simp only [processEntry]
  by_cases hl : e.link.getD [] = []
  · simp [hl]
  · simp only [hl, if_false]
    by_cases hm : e.link.getD [] ∈ keys store
    · simp [tryReserve_of_mem ctx.now hm]
    · refine Or.inr ⟨e.link.getD [], hl, hm, ?_⟩
      simp only [tryReserve_of_not_mem ctx.now hm]
      cases mode with
      | development => simp
      | production =>
        by_cases hd : (deliver ctx.r1 ctx.r2).ok
        · simp [hd]
        · simp [hd]

theorem processEntry_nodup_keys (mode : Mode) (store : Store)
    (stats : FeedStats) (e : Entry) (ctx : EntryCtx)
    (h : (keys store).Nodup) :
    (keys (processEntry mode store stats e ctx).store).Nodup := by
  rcases processEntry_store_cases mode store stats e ctx with hc | ⟨url, _, hm, hc | hc⟩
  · rw [hc]; exact h
  · rw [hc]; exact nodup_keys_append h hm
  · rw [hc]; exact nodup_keys_release url (nodup_keys_append h hm)

theorem processEntry_urls_nonempty (mode : Mode) (store : Store)
    (stats : FeedStats) (e : Entry) (ctx : EntryCtx)
    (h : ∀ r ∈ store, r.1 ≠ []) :
    ∀ r ∈ (processEntry mode store stats e ctx).store, r.1 ≠ [] := by
  rcases processEntry_store_cases mode store stats e ctx with hc | ⟨url, hne, _, hc | hc⟩
  · rw [hc]; exact h
  · rw [hc]; exact urls_nonempty_append h hne
  · rw [hc]; exact urls_nonempty_release url (urls_nonempty_append h hne)

theorem processEntries_nodup_keys (mode : Mode) :
    ∀ (items : List (Entry × EntryCtx)) (store : Store) (stats : FeedStats),
    (keys store).Nodup → (keys (processEntries mode store stats items).1).Nodup := by
  intro items
  induction items with
  | nil => intro store stats h; exact h
  | cons it rest ih =>
    intro store stats h
    exact ih _ _ (processEntry_nodup_keys mode store stats it.1 it.2 h)

theorem processEntries_urls_nonempty (mode : Mode) :
    ∀ (items : List (Entry × EntryCtx)) (store : Store) (stats : FeedStats),
    (∀ r ∈ store, r.1 ≠ []) →
    ∀ r ∈ (processEntries mode store stats items).1, r.1 ≠ [] := by
  intro items
  induction items with
  | nil => intro store stats h; exact h
  | cons it rest ih =>
    intro store stats h
    exact ih _ _ (processEntry_urls_nonempty mode store stats it.1 it.2 h)

theorem processFeed_nodup_keys (mode : Mode) (store : Store) (f : Feed)
    (ctx : FeedCtx) (h : (keys store).Nodup) :
    (keys (processFeed mode store f ctx).1).Nodup := by
  simp only [processFeed]
  split
  · exact h
  · split
    · exact h
    · exact processEntries_nodup_keys mode _ store _ h

theorem processFeed_urls_nonempty (mode : Mode) (store : Store) (f : Feed)
    (ctx : FeedCtx) (h : ∀ r ∈ store, r.1 ≠ []) :
    ∀ r ∈ (processFeed mode store f ctx).1, r.1 ≠ [] := by
  simp only [processFeed]
  split
  · exact h
  · split
    · exact h
    · exact processEntries_urls_nonempty mode _ store _ h

theorem processFeeds_nodup_keys (mode : Mode) :
    ∀ (world : List (Feed × FeedCtx)) (store : Store),
    (keys store).Nodup → (keys (processFeeds mode store world).1).Nodup := by
  intro world
  induction world with
  | nil => intro store h; exact h
  | cons fc rest ih =>
    intro store h
    exact ih _ (processFeed_nodup_keys mode store fc.1 fc.2 h)

theorem processFeeds_urls_nonempty (mode : Mode) :
    ∀ (world : List (Feed × FeedCtx)) (store : Store),
    (∀ r ∈ store, r.1 ≠ []) →
    ∀ r ∈ (processFeeds mode store world).1, r.1 ≠ [] := by
  intro world
  induction world with
  | nil => intro store h; exact h
  | cons fc rest ih =>
    intro store h
    exact ih _ (processFeed_urls_nonempty mode store fc.1 fc.2 h)

theorem filterMap_getElem_eq_pmap {α : Type} (entries : List α) :
    ∀ (l : List ℕ) (h : ∀ i ∈ l, i < entries.length),
    (l.filterMap fun i => entries[i]?) =
      l.pmap (fun i hi => entries.get ⟨i, hi⟩) h := by
  intro l
  induction l with
  | nil => intro h; rfl
  | cons a t ih =>
    intro h
    have ha : a < entries.length := h a (List.mem_cons_self a t)
    simp [List.filterMap_cons, List.getElem?_eq_getElem ha,
      ih (fun i hi => h i (List.mem_cons_of_mem a hi))]

theorem parseConfigRest_isErr (rm : Mode) (argv : List Str)
    (fl : Option (List Str)) (mev : Option Str) :
    isErr (parseConfigRest rm argv fl mev) =
      (decide (argv.length < 3)
       || fl.isNone
       || (match fl with
           | some lines => decide (cleanLinks lines = [])
           | none => false)
       || (match pyInt (mev.getD "5".data) with
           | none => true
           | some v => decide (v ≤ 0))
       || (decide (rm = .production)
           && !(webhookBase.isPrefixOf (argv.getD 2 [])))) := by
  by_cases h3 : argv.length < 3
  · simp [parseConfigRest, h3, isErr]
  · cases fl with
    | none => simp [parseConfigRest, h3, isErr]
    | some lines =>
      by_cases hlk : cleanLinks lines = []
      · simp [parseConfigRest, h3, hlk, isErr]
      · cases hmx : pyInt (mev.getD "5".data) with
        | none => simp [parseConfigRest, h3, hlk, hmx, isErr]
        | some m =>
          by_cases hm0 : m ≤ 0
          · simp [parseConfigRest, h3, hlk, hmx, hm0, isErr]
          · by_cases hw : webhookBase <+: (argv[2]?.getD [])
            · simp [parseConfigRest, h3, hlk, hmx, hm0, hw, isErr,
                List.isPrefixOf_iff_prefix]
            · cases rm with
              | development =>
                simp [parseConfigRest, h3, hlk, hmx, hm0, hw, isErr,
                  List.isPrefixOf_iff_prefix]
              | production =>
                simp [parseConfigRest, h3, hlk, hmx, hm0, hw, isErr]
                exact Bool.eq_false_iff.mpr
                  (fun hc => hw ( List.isPrefixOf_iff_prefix.mp hc))

theorem parseConfig_isErr (env : Env) :
    isErr (parseConfig env) = configErrorSpec env := by
  rcases env with ⟨mv, argv, fl, mev⟩
  cases mv with
  | none =>
    rw [show parseConfig ⟨none, argv, fl, mev⟩
        = parseConfigRest .production argv fl mev from rfl]
    rw [parseConfigRest_isErr]
    simp [configErrorSpec, badModeSpec, modeOf, badMaxSpec]
  | some s =>
    cases hpi : pyInt s with
    | none =>
      simp [parseConfig, configErrorSpec, badModeSpec, hpi, isErr]
    | some v =>
      by_cases hv1 : v = 1
      · subst hv1
        rw [show parseConfig ⟨some s, argv, fl, mev⟩
            = parseConfigRest .development argv fl mev by simp [parseConfig, hpi]]
        rw [parseConfigRest_isErr]
        simp [configErrorSpec, badModeSpec, modeOf, badMaxSpec, hpi]
      · by_cases hv2 : v = 2
        · subst hv2
          rw [show parseConfig ⟨some s, argv, fl, mev⟩
              = parseConfigRest .production argv fl mev by simp [parseConfig, hpi]]
          rw [parseConfigRest_isErr]
          simp [configErrorSpec, badModeSpec, modeOf, badMaxSpec, hpi]
        · simp [parseConfig, configErrorSpec, badModeSpec, modeOf,
            badMaxSpec, hpi, hv1, hv2, isErr]

/-! The claim theorems. -/

/-- C1: at most one DeliveryRecord per url ever exists in the dedup store —
the reserve step is a unique-constrained `INSERT OR IGNORE` into a table whose
`url` column is the primary key, so across any sequence of processed feeds
(and, by iterating, any sequence of runs) a store whose urls are distinct
keeps them distinct, and no url is ever recorded twice. -/
theorem claim_C1_store_uniqueness (mode : Mode) (store : Store)
    (world : List (Feed × FeedCtx)) (h : (keys store).Nodup) :
    (keys (processFeeds mode store world).1).Nodup ∧
    ∀ i j : Fin (keys (processFeeds mode store world).1).length,
      (keys (processFeeds mode store world).1).get i
          = (keys (processFeeds mode store world).1).get j → i = j := by
  have hn := processFeeds_nodup_keys mode world store h
  exact ⟨hn, fun i j hij => List.nodup_iff_injective_get.mp hn hij⟩

theorem claim_C1_store_uniqueness_witness :
    (keys (processFeeds .production [] [(wFeed, wFeedCtx)]).1).Nodup ∧
    ∀ i j : Fin (keys (processFeeds .production [] [(wFeed, wFeedCtx)]).1).length,
      (keys (processFeeds .production [] [(wFeed, wFeedCtx)]).1).get i
          = (keys (processFeeds .production [] [(wFeed, wFeedCtx)]).1).get j →
      i = j :=
  claim_C1_store_uniqueness .production [] [(wFeed, wFeedCtx)] (by decide)

/-- C2: if a reservation succeeds and the delivery attempt fails terminally,
`failed` is incremented by 1 and the row for that url is deleted again, so
the store no longer contains the url and a later `tryReserve` for it succeeds. -/
theorem claim_C2_rollback_on_failure (store : Store) (stats : FeedStats)
    (e : Entry) (ctx : EntryCtx) (url now₂ : Str)
    (hl : e.link = some url) (hne : url ≠ []) (hfresh : url ∉ keys store)
    (hfail : (deliver ctx.r1 ctx.r2).ok = false) :
    (processEntry .production store stats e ctx).stats.failed = stats.failed + 1 ∧
    url ∉ keys (processEntry .production store stats e ctx).store ∧
    (tryReserve (processEntry .production store stats e ctx).store url now₂).2
      = true := by
  have h1 : processEntry .production store stats e ctx =
      ⟨release (store ++ [(url, ctx.now)]) url,
       { stats with new := stats.new + 1, failed := stats.failed + 1 },
       (deliver ctx.r1 ctx.r2).requests, (deliver ctx.r1 ctx.r2).backoffs⟩ := by
    simp [processEntry, hl, hne, tryReserve_of_not_mem ctx.now hfresh, hfail]
  rw [h1]
  refine ⟨rfl, not_mem_keys_release _ _, ?_⟩
  rw [tryReserve_of_not_mem now₂ (not_mem_keys_release _ _)]

theorem claim_C2_rollback_on_failure_witness :
    (processEntry .production [] wStats wEntry wCtxFail).stats.failed
        = wStats.failed + 1 ∧
    wUrl ∉ keys (processEntry .production [] wStats wEntry wCtxFail).store ∧
    (tryReserve (processEntry .production [] wStats wEntry wCtxFail).store
        wUrl wNow).2 = true :=
  claim_C2_rollback_on_failure [] wStats wEntry wCtxFail wUrl wNow
    (by decide) (by decide) (by decide) (by decide)

/-- C3: with `k` drawn from `[1, max(1, maxCount)]` and clamped to the number
of entries, and the drawn positions distinct and in range, the sample has
exactly `min(len(entries), k)` items — hence between 0 and
`min(len(entries), maxCount)` for positive `maxCount` — every returned item
occurs in the input, and no input position is returned twice (the positions
of the result map injectively into the input). -/
theorem claim_C3_sampler (α : Type) (entries : List α) (maxCount k : ℕ)
    (sel : List ℕ)
    (_hk1 : 1 ≤ k) (hk : k ≤ max 1 maxCount) (hpos : 0 < maxCount)
    (hvalid : ∀ i ∈ sel, i < entries.length) (hnd : sel.Nodup)
    (hlen : min entries.length k ≤ sel.length) :
    (sampleModel entries (min entries.length k) sel).length
        = min entries.length k ∧
    (sampleModel entries (min entries.length k) sel).length
        ≤ min entries.length maxCount ∧
    (∀ x ∈ sampleModel entries (min entries.length k) sel, x ∈ entries) ∧
    ∃ f : Fin (sampleModel entries (min entries.length k) sel).length →
        Fin entries.length, Function.Injective f ∧
      ∀ j, (sampleModel entries (min entries.length k) sel).get j
            = entries.get (f j) := by
  have hmax : max 1 maxCount = maxCount := Nat.max_eq_right hpos
  set count := min entries.length k with hcount
  set sel' := sel.take count with hsel'
  have hv' : ∀ i ∈ sel', i < entries.length :=
    fun i hi => hvalid i ((List.take_sublist count sel).subset hi)
  have hnd' : sel'.Nodup := hnd.sublist (List.take_sublist count sel)
  have hlen' : sel'.length = count := by
    rw [hsel', List.length_take]; omega
  have hM : sampleModel entries count sel
      = sel'.pmap (fun i hi => entries.get ⟨i, hi⟩) hv' := by
    rw [sampleModel]
    exact filterMap_getElem_eq_pmap entries sel' hv'
  have hRlen : (sampleModel entries count sel).length = count := by
    rw [hM, List.length_pmap, hlen']
  refine ⟨hRlen, ?_, ?_, ?_⟩
  · rw [hRlen]; omega
  · intro x hx
    rw [hM] at hx
    rcases List.mem_pmap.mp hx with ⟨i, hi, hget⟩
    rw [← hget]
    exact List.get_mem _ _ _
  · rw [hM]
    have hpl : (sel'.pmap (fun i hi => entries.get ⟨i, hi⟩) hv').length
        = sel'.length := List.length_pmap
    refine ⟨fun j => ⟨sel'.get (Fin.cast hpl j),
      hv' _ (List.get_mem _ _ _)⟩, ?_, ?_⟩
    · intro j₁ j₂ hf
      have h1 : sel'.get (Fin.cast hpl j₁) = sel'.get (Fin.cast hpl j₂) :=
        congrArg Fin.val hf
      exact Fin.cast_injective _ (List.nodup_iff_injective_get.mp hnd' h1)
    · intro j
      exact List.get_pmap _ hv' j.isLt

theorem claim_C3_sampler_witness :
    (sampleModel [10, 20, 30] (min (List.length [10, 20, 30]) 2) [2, 0]).length
        = min (List.length [10, 20, 30]) 2 ∧
    (sampleModel [10, 20, 30] (min (List.length [10, 20, 30]) 2) [2, 0]).length
        ≤ min (List.length [10, 20, 30]) 2 ∧
    (∀ x ∈ sampleModel [10, 20, 30] (min (List.length [10, 20, 30]) 2) [2, 0],
      x ∈ [10, 20, 30]) ∧
    ∃ f : Fin (sampleModel [10, 20, 30]
        (min (List.length [10, 20, 30]) 2) [2, 0]).length →
        Fin (List.length [10, 20, 30]), Function.Injective f ∧
      ∀ j, (sampleModel [10, 20, 30]
              (min (List.length [10, 20, 30]) 2) [2, 0]).get j
            = [10, 20, 30].get (f j) :=
  claim_C3_sampler ℕ [10, 20, 30] 2 2 [2, 0] (by decide) (by decide)
    (by decide) (by decide) (by decide) (by decide)

/-- C4: the built embed's title is `entry.title` (or the fallback literal)
truncated to 256 characters, its description is the summary with tags removed
and entities unescaped truncated to 300 characters, an absent summary yields
the empty description, and no input produces a longer title or description. -/
theorem claim_C4_embed_bounds (pe : PyEnv) (e : Entry) (feed_title : Str)
    (color : Int) (hu : pe.unescape [] = []) :
    (entry_to_embed pe e feed_title color).title
        = (titleOrUntitled e.title).take 256 ∧
    (entry_to_embed pe e feed_title color).description
        = (strip_html pe.unescape (e.summary.getD [])).take 300 ∧
    (entry_to_embed pe e feed_title color).title.length ≤ 256 ∧
    (entry_to_embed pe e feed_title color).description.length ≤ 300 ∧
    (e.summary = none → (entry_to_embed pe e feed_title color).description = []) := by
  refine ⟨rfl, rfl, ?_, ?_, ?_⟩
  · exact (titleOrUntitled e.title).length_take_le 256
  · exact (strip_html pe.unescape (e.summary.getD [])).length_take_le 300
  · intro hs
    simp [entry_to_embed, hs, strip_html, hu, removeTags, pyStrip]

theorem claim_C4_embed_bounds_witness :
    (entry_to_embed ⟨id, fun _ => none⟩ wEntryNoLink "Feed".data 7).title
        = (titleOrUntitled wEntryNoLink.title).take 256 ∧
    (entry_to_embed ⟨id, fun _ => none⟩ wEntryNoLink "Feed".data 7).description
        = (strip_html id (wEntryNoLink.summary.getD [])).take 300 ∧
    (entry_to_embed ⟨id, fun _ => none⟩ wEntryNoLink "Feed".data 7).title.length
        ≤ 256 ∧
    (entry_to_embed ⟨id, fun _ => none⟩ wEntryNoLink
        "Feed".data 7).description.length ≤ 300 ∧
    (wEntryNoLink.summary = none →
      (entry_to_embed ⟨id, fun _ => none⟩ wEntryNoLink "Feed".data 7).description
        = []) :=
  claim_C4_embed_bounds ⟨id, fun _ => none⟩ wEntryNoLink "Feed".data 7 rfl

/-- C5: when the first response is a 429, the client reads the
server-suggested wait (default 5 when unreadable), sleeps exactly that long,
retries exactly once; if the retried response succeeds, `posted` increments
by 1 with exactly one back-off wait, and no input ever causes more than one
retry (at most 2 POSTs per entry). -/
theorem claim_C5_rate_limit_retry (store : Store) (stats : FeedStats)
    (e : Entry) (ctx : EntryCtx) (url : Str) (ra ra₂ : Option Int) (s₂ : ℕ)
    (hl : e.link = some url) (hne : url ≠ []) (hfresh : url ∉ keys store)
    (h1 : ctx.r1 = .resp 429 ra) (h2 : ctx.r2 = .resp s₂ ra₂)
    (hok : okStatus s₂ = true) :
    (processEntry .production store stats e ctx).stats.posted = stats.posted + 1 ∧
    (processEntry .production store stats e ctx).backoffs = [ra.getD 5] ∧
    (ra = none → (processEntry .production store stats e ctx).backoffs = [5]) ∧
    (processEntry .production store stats e ctx).requests = 2 ∧
    (∀ a b : HttpResult, (deliver a b).requests ≤ 2) := by
  have hd : deliver ctx.r1 ctx.r2 = ⟨true, [ra.getD 5], 2⟩ := by
    rw [h1, h2]; simp [deliver, hok]
  have hred : processEntry .production store stats e ctx =
      ⟨store ++ [(url, ctx.now)],
       { stats with new := stats.new + 1, posted := stats.posted + 1 },
       2, [ra.getD 5]⟩ := by
    simp [processEntry, hl, hne, tryReserve_of_not_mem ctx.now hfresh, hd]
  rw [hred]
  refine ⟨rfl, rfl, fun h => by simp [h], rfl, ?_⟩
  intro a b
  cases a with
  | exn => simp [deliver]
  | resp s ra₃ =>
    by_cases hs : s = 429 <;> cases b <;> simp [deliver, hs]

theorem claim_C5_rate_limit_retry_witness :
    (processEntry .production [] wStats wEntry wCtx429).stats.posted
        = wStats.posted + 1 ∧
    (processEntry .production [] wStats wEntry wCtx429).backoffs
        = [(some (7:Int)).getD 5] ∧
    (some (7:Int) = none →
      (processEntry .production [] wStats wEntry wCtx429).backoffs = [5]) ∧
    (processEntry .production [] wStats wEntry wCtx429).requests = 2 ∧
    (∀ a b : HttpResult, (deliver a b).requests ≤ 2) :=
  claim_C5_rate_limit_retry [] wStats wEntry wCtx429 wUrl (some 7) none 200
    (by decide) (by decide) (by decide) (by decide) (by decide) (by decide)

/-- C6: when reservation fails because the url is already present, the
duplicate counter is incremented, a DuplicateEntry record is appended,
no delivery is attempted (zero POSTs), the store — including the
pre-existing row's delivered timestamp — is left unchanged, and processing
continues with the next entry. -/
theorem claim_C6_duplicate_skip (mode : Mode) (store : Store)
    (stats : FeedStats) (e : Entry) (ctx : EntryCtx) (url : Str)
    (rest : List (Entry × EntryCtx))
    (hl : e.link = some url) (hne : url ≠ []) (hdup : url ∈ keys store) :
    (processEntry mode store stats e ctx).store = store ∧
    (processEntry mode store stats e ctx).stats =
      { stats with
        duplicate := stats.duplicate + 1
        duplicates := stats.duplicates ++ [⟨url, ctx.now, "duplicate".data⟩] } ∧
    (processEntry mode store stats e ctx).requests = 0 ∧
    processEntries mode store stats ((e, ctx) :: rest) =
      processEntries mode store
        { stats with
          duplicate := stats.duplicate + 1
          duplicates := stats.duplicates ++ [⟨url, ctx.now, "duplicate".data⟩] }
        rest := by
  have hred : processEntry mode store stats e ctx =
      ⟨store,
       { stats with
         duplicate := stats.duplicate + 1
         duplicates := stats.duplicates ++ [⟨url, ctx.now, "duplicate".data⟩] },
       0, []⟩ := by
    simp [processEntry, hl, hne, tryReserve_of_mem ctx.now hdup]
  refine ⟨by rw [hred], by rw [hred], by rw [hred], ?_⟩
  simp [processEntries, hred]

theorem claim_C6_duplicate_skip_witness :
    (processEntry .production [(wUrl, wNow)] wStats wEntry wCtxOk).store
        = [(wUrl, wNow)] ∧
    (processEntry .production [(wUrl, wNow)] wStats wEntry wCtxOk).stats =
      { wStats with
        duplicate := wStats.duplicate + 1
        duplicates := wStats.duplicates
          ++ [⟨wUrl, wCtxOk.now, "duplicate".data⟩] } ∧
    (processEntry .production [(wUrl, wNow)] wStats wEntry wCtxOk).requests = 0 ∧
    processEntries .production [(wUrl, wNow)] wStats [(wEntry, wCtxOk)] =
      processEntries .production [(wUrl, wNow)]
        { wStats with
          duplicate := wStats.duplicate + 1
          duplicates := wStats.duplicates
            ++ [⟨wUrl, wCtxOk.now, "duplicate".data⟩] }
        [] :=
  claim_C6_duplicate_skip .production [(wUrl, wNow)] wStats wEntry wCtxOk wUrl
    [] (by decide) (by decide) (by decide)

/-- C7: the exit code is 0 on every completed run — whatever parse failures
or delivery failures the oracle `world` contains — and 1 exactly when the
spec's enumerated configuration errors occur (invalid mode value, missing
arguments, missing or empty feed list, non-integer or non-positive
max-entries, malformed destination URI in live mode); in the error case the
store is untouched, i.e. the error is detected before any feed is processed. -/
theorem claim_C7_exit_codes (env : Env) (world : Str → Feed × FeedCtx)
    (store : Store) :
    (runMain env world store).1 = (if configErrorSpec env then 1 else 0) ∧
    (configErrorSpec env = true → (runMain env world store).2.1 = store) := by
  cases hpc : parseConfig env with
  | error e =>
    have hc : configErrorSpec env = true := by
      have h := parseConfig_isErr env
      rw [hpc] at h
      simpa [isErr] using h.symm
    simp [runMain, hpc, hc]
  | ok cfg =>
    have hc : configErrorSpec env = false := by
      have h := parseConfig_isErr env
      rw [hpc] at h
      simpa [isErr] using h.symm
    simp [runMain, hpc, hc]

theorem claim_C7_exit_codes_witness :
    (runMain wEnv (fun _ => (wFeed, wFeedCtx)) []).1
        = (if configErrorSpec wEnv then 1 else 0) ∧
    (configErrorSpec wEnv = true →
      (runMain wEnv (fun _ => (wFeed, wFeedCtx)) []).2.1 = []) :=
  claim_C7_exit_codes wEnv (fun _ => (wFeed, wFeedCtx)) []

/-- C8: a feed whose parse result signals `bozo` with zero entries is
recorded with all-zero stats (available = 0, selected = 0), causes no store
mutation, and the remaining feeds of the run are processed from the same
store as if that feed were absent. -/
theorem claim_C8_parse_failure_skips_feed (mode : Mode) (store : Store)
    (f : Feed) (ctx : FeedCtx) (rest : List (Feed × FeedCtx))
    (hb : f.bozo = true) (he : f.entries = []) :
    processFeed mode store f ctx
        = (store, { feed_name := f.feedTitle.getD f.rss_link }) ∧
    (processFeed mode store f ctx).2.available = 0 ∧
    (processFeed mode store f ctx).2.selected = 0 ∧
    processFeeds mode store ((f, ctx) :: rest) =
      ((processFeeds mode store rest).1,
       { feed_name := f.feedTitle.getD f.rss_link }
         :: (processFeeds mode store rest).2) := by
  have hred : processFeed mode store f ctx
      = (store, { feed_name := f.feedTitle.getD f.rss_link }) := by
    simp [processFeed, hb, he]
  refine ⟨hred, by rw [hred], by rw [hred], ?_⟩
  simp [processFeeds, hred]

theorem claim_C8_parse_failure_skips_feed_witness :
    processFeed .production [] wFeedBozo wFeedCtx
        = ([], { feed_name := wFeedBozo.feedTitle.getD wFeedBozo.rss_link }) ∧
    (processFeed .production [] wFeedBozo wFeedCtx).2.available = 0 ∧
    (processFeed .production [] wFeedBozo wFeedCtx).2.selected = 0 ∧
    processFeeds .production [] [(wFeedBozo, wFeedCtx), (wFeed, wFeedCtx)] =
      ((processFeeds .production [] [(wFeed, wFeedCtx)]).1,
       { feed_name := wFeedBozo.feedTitle.getD wFeedBozo.rss_link }
         :: (processFeeds .production [] [(wFeed, wFeedCtx)]).2) :=
  claim_C8_parse_failure_skips_feed .production [] wFeedBozo wFeedCtx
    [(wFeed, wFeedCtx)] (by decide) (by decide)

/-- C9: the feed color is a deterministic function of the feed title (for the
fixed in-process `hash`), and always lies in the 24-bit range
`[0, 0xFFFFFF]`. -/
theorem claim_C9_color_range (pyHash : Str → Int) (t₁ t₂ : Str) (h : t₁ = t₂) :
    feed_title_to_color pyHash t₁ = feed_title_to_color pyHash t₂ ∧
    0 ≤ feed_title_to_color pyHash t₁ ∧
    feed_title_to_color pyHash t₁ ≤ 0xFFFFFF := by
  subst h
  refine ⟨rfl, Int.emod_nonneg _ (by norm_num), ?_⟩
  have := Int.emod_lt_of_pos (pyHash t₁) (show (0:Int) < 16777216 by norm_num)
  simp only [feed_title_to_color]
  omega

theorem claim_C9_color_range_witness :
    feed_title_to_color (fun _ => -987654321) "Feed".data
        = feed_title_to_color (fun _ => -987654321) "Feed".data ∧
    0 ≤ feed_title_to_color (fun _ => -987654321) "Feed".data ∧
    feed_title_to_color (fun _ => -987654321) "Feed".data ≤ 0xFFFFFF :=
  claim_C9_color_range (fun _ => -987654321) "Feed".data "Feed".data rfl

/-- C10: an entry whose link is absent or empty is skipped before any store
access — processing it changes nothing and performs no POST — and therefore
a store all of whose urls are non-empty keeps that property across a whole
run: no row with an empty url can ever exist. -/
theorem claim_C10_no_empty_url (mode : Mode) (store : Store)
    (stats : FeedStats) (e : Entry) (ctx : EntryCtx)
    (world : List (Feed × FeedCtx))
    (hl : e.link.getD [] = []) (hinv : ∀ r ∈ store, r.1 ≠ []) :
    processEntry mode store stats e ctx = ⟨store, stats, 0, []⟩ ∧
    ∀ r ∈ (processFeeds mode store world).1, r.1 ≠ [] := by
  constructor
  · simp [processEntry, hl]
  · exact processFeeds_urls_nonempty mode world store hinv

theorem claim_C10_no_empty_url_witness :
    processEntry .production [(wUrl, wNow)] wStats wEntryNoLink wCtxOk
        = ⟨[(wUrl, wNow)], wStats, 0, []⟩ ∧
    ∀ r ∈ (processFeeds .production [(wUrl, wNow)] [(wFeed, wFeedCtx)]).1,
      r.1 ≠ [] :=
  claim_C10_no_empty_url .production [(wUrl, wNow)] wStats wEntryNoLink wCtxOk
    [(wFeed, wFeedCtx)] (by decide) (by decide)

end MyDiscordBot
